import Mathlib

/-!
Shallow embedding of `src/src/osgview/GUIOSGManipulator.cpp` (SUMO's custom OSG
camera manipulator) over exact rationals.

The C++ code computes with `double`; the embedding idealises IEEE doubles as ℚ,
which is the standard exact model for the algebraic and control-flow properties
verified here.  The OpenSceneGraph vector/quaternion/matrix primitives the file
calls (`osg::Vec3d`, `osg::Quat`, `osg::Matrixd`) are translated from their OSG
definitions: quaternion product, the nVidia-SDK quaternion-vector rotation,
`Matrixd::rotate`/`setRotate`, `Matrixd::translate`, row-vector `v * M`
(`Matrixd::preMult`), the `INNER_PRODUCT` matrix product, and the
trace-maximising quaternion extraction `Matrixd::getRotate`.  The only external
calls left abstract are `osgGA::StandardManipulator::fixVerticalAxis` (both
overloads) and angle-axis `Quat::makeRotate`, which involve trigonometry /
library geometry not visible in this repository; they are passed in as explicit
function parameters bundled in `OsgExt`, so every theorem quantifies over them
where they are irrelevant to the claim.

`sqrt` (used only by `Matrixd::getRotate`) is modelled by `ratSqrt`, an exact
square root on ℚ: it agrees with the real square root on every perfect rational
square, and all arguments fed to it by the verified code paths are perfect
squares (they are `4*w*w` for a rational quaternion component `w`).
-/

/-- Structural integer square root: largest k ≤ bound with k*k ≤ n, computed by
downward search.  Used to build the exact rational square root `ratSqrt`. -/
def natSqrtGo (n : ℕ) : ℕ → ℕ
  | 0 => 0
  | k+1 => if (k+1)*(k+1) ≤ n then k+1 else natSqrtGo n k

/-- Integer square root (exact on perfect squares). -/
def natSqrt (n : ℕ) : ℕ := natSqrtGo n n

/-- Exact rational square root: square roots of numerator and denominator.
Models the C `sqrt` call in `Matrixd::getRotate`; exact on perfect rational
squares, which covers every argument produced by the embedded code. -/
def ratSqrt (q : ℚ) : ℚ := (natSqrt q.num.toNat : ℚ) / (natSqrt q.den : ℚ)

/-- osg::Vec3d. -/
@[ext]
structure Vec3 where
  x : ℚ
  y : ℚ
  z : ℚ
deriving DecidableEq

instance : Add Vec3 := ⟨fun a b => ⟨a.x + b.x, a.y + b.y, a.z + b.z⟩⟩

instance : Neg Vec3 := ⟨fun a => ⟨-a.x, -a.y, -a.z⟩⟩

instance : Sub Vec3 := ⟨fun a b => ⟨a.x - b.x, a.y - b.y, a.z - b.z⟩⟩

/-- Scalar multiple of a vector (osg::Vec3d::operator*=(double)). -/
def vscale (c : ℚ) (v : Vec3) : Vec3 := ⟨c * v.x, c * v.y, c * v.z⟩

/-- Dot product (osg::Vec3d::operator*(const Vec3d&)), the `newCameraUp * localUp`
of GUIOSGManipulator.cpp line 169. -/
def vdot (a b : Vec3) : ℚ := a.x * b.x + a.y * b.y + a.z * b.z

/-- Cross product (osg::Vec3d::operator^). -/
def vcross (a b : Vec3) : Vec3 :=
  ⟨a.y * b.z - a.z * b.y, a.z * b.x - a.x * b.z, a.x * b.y - a.y * b.x⟩

/-- osg::Quat, components (x, y, z, w). -/
@[ext]
structure Quat where
  x : ℚ
  y : ℚ
  z : ℚ
  w : ℚ
deriving DecidableEq

/-- The identity quaternion osg::Quat(), i.e. (0,0,0,1). -/
def quatIdent : Quat := ⟨0, 0, 0, 1⟩

/-- osg::Quat::length2. -/
def quatLength2 (q : Quat) : ℚ := q.x*q.x + q.y*q.y + q.z*q.z + q.w*q.w

/-- osg::Quat::conj. -/
def quatConj (q : Quat) : Quat := ⟨-q.x, -q.y, -q.z, q.w⟩

/-- osg::Quat::inverse: conj() / length2(). -/
def quatInverse (q : Quat) : Quat :=
  ⟨-q.x / quatLength2 q, -q.y / quatLength2 q, -q.z / quatLength2 q, q.w / quatLength2 q⟩

/-- osg::Quat::operator*(const Quat& rhs): OSG multiplies in reversed (row-vector)
convention; this is the verbatim component formula from osg/Quat. -/
def quatMul (a b : Quat) : Quat :=
  ⟨b.w*a.x + b.x*a.w + b.y*a.z - b.z*a.y,
   b.w*a.y - b.x*a.z + b.y*a.w + b.z*a.x,
   b.w*a.z + b.x*a.y - b.y*a.x + b.z*a.w,
   b.w*a.w - b.x*a.x - b.y*a.y - b.z*a.z⟩

/-- osg::Quat::operator*(const Vec3d& v): the nVidia SDK rotation formula
uv = qvec ^ v; uuv = qvec ^ uv; v + uv*(2w) + uuv*2. -/
def quatApply (q : Quat) (v : Vec3) : Vec3 :=
  v + vscale (2 * q.w) (vcross ⟨q.x, q.y, q.z⟩ v) +
    vscale 2 (vcross ⟨q.x, q.y, q.z⟩ (vcross ⟨q.x, q.y, q.z⟩ v))

/-- osg::Matrixd, row-major entries `_mat[row][col]`; row vectors multiply from
the left (`v * M`), translations live in row 3. -/
@[ext]
structure Mat4 where
  m00 : ℚ
  m01 : ℚ
  m02 : ℚ
  m03 : ℚ
  m10 : ℚ
  m11 : ℚ
  m12 : ℚ
  m13 : ℚ
  m20 : ℚ
  m21 : ℚ
  m22 : ℚ
  m23 : ℚ
  m30 : ℚ
  m31 : ℚ
  m32 : ℚ
  m33 : ℚ
deriving DecidableEq

/-- osg::Matrixd::operator*: the INNER_PRODUCT expansion of
Matrix_implementation::mult (standard row-by-column product). -/
def matMul (a b : Mat4) : Mat4 :=
  ⟨a.m00*b.m00 + a.m01*b.m10 + a.m02*b.m20 + a.m03*b.m30,
   a.m00*b.m01 + a.m01*b.m11 + a.m02*b.m21 + a.m03*b.m31,
   a.m00*b.m02 + a.m01*b.m12 + a.m02*b.m22 + a.m03*b.m32,
   a.m00*b.m03 + a.m01*b.m13 + a.m02*b.m23 + a.m03*b.m33,
   a.m10*b.m00 + a.m11*b.m10 + a.m12*b.m20 + a.m13*b.m30,
   a.m10*b.m01 + a.m11*b.m11 + a.m12*b.m21 + a.m13*b.m31,
   a.m10*b.m02 + a.m11*b.m12 + a.m12*b.m22 + a.m13*b.m32,
   a.m10*b.m03 + a.m11*b.m13 + a.m12*b.m23 + a.m13*b.m33,
   a.m20*b.m00 + a.m21*b.m10 + a.m22*b.m20 + a.m23*b.m30,
   a.m20*b.m01 + a.m21*b.m11 + a.m22*b.m21 + a.m23*b.m31,
   a.m20*b.m02 + a.m21*b.m12 + a.m22*b.m22 + a.m23*b.m32,
   a.m20*b.m03 + a.m21*b.m13 + a.m22*b.m23 + a.m23*b.m33,
   a.m30*b.m00 + a.m31*b.m10 + a.m32*b.m20 + a.m33*b.m30,
   a.m30*b.m01 + a.m31*b.m11 + a.m32*b.m21 + a.m33*b.m31,
   a.m30*b.m02 + a.m31*b.m12 + a.m32*b.m22 + a.m33*b.m32,
   a.m30*b.m03 + a.m31*b.m13 + a.m32*b.m23 + a.m33*b.m33⟩

/-- The identity matrix osg::Matrixd::identity(). -/
def matIdentity : Mat4 := ⟨1,0,0,0, 0,1,0,0, 0,0,1,0, 0,0,0,1⟩

/-- Entry-wise scalar multiple; proof-local helper for factoring `rotateMat`. -/
def matSmul (c : ℚ) (m : Mat4) : Mat4 :=
  ⟨c*m.m00, c*m.m01, c*m.m02, c*m.m03,
   c*m.m10, c*m.m11, c*m.m12, c*m.m13,
   c*m.m20, c*m.m21, c*m.m22, c*m.m23,
   c*m.m30, c*m.m31, c*m.m32, c*m.m33⟩

/-- osg::Matrixd::translate(x,y,z): identity linear block, translation in row 3. -/
def translateMat (v : Vec3) : Mat4 :=
  ⟨1,0,0,0, 0,1,0,0, 0,0,1,0, v.x, v.y, v.z, 1⟩

/-- osg::Matrixd::rotate(const Quat&), i.e. makeIdentity followed by setRotate.
Verbatim from Matrix_implementation::setRotate: if length2 vanishes the 3x3
block is zeroed, otherwise the Gamasutra quaternion-to-matrix formula with
normalisation factor rlength2 = 2/length2 (products x2 = rlength2*x etc.,
xx = x*x2 and so on). -/
def rotateMat (q : Quat) : Mat4 :=
  if quatLength2 q = 0 then
    ⟨0,0,0,0, 0,0,0,0, 0,0,0,0, 0,0,0,1⟩
  else
    ⟨1 - (q.y * (2 / quatLength2 q * q.y) + q.z * (2 / quatLength2 q * q.z)),
     q.x * (2 / quatLength2 q * q.y) + q.w * (2 / quatLength2 q * q.z),
     q.x * (2 / quatLength2 q * q.z) - q.w * (2 / quatLength2 q * q.y),
     0,
     q.x * (2 / quatLength2 q * q.y) - q.w * (2 / quatLength2 q * q.z),
     1 - (q.x * (2 / quatLength2 q * q.x) + q.z * (2 / quatLength2 q * q.z)),
     q.y * (2 / quatLength2 q * q.z) + q.w * (2 / quatLength2 q * q.x),
     0,
     q.x * (2 / quatLength2 q * q.z) + q.w * (2 / quatLength2 q * q.y),
     q.y * (2 / quatLength2 q * q.z) - q.w * (2 / quatLength2 q * q.x),
     1 - (q.x * (2 / quatLength2 q * q.x) + q.y * (2 / quatLength2 q * q.y)),
     0,
     0, 0, 0, 1⟩

/-- The same 3x3 rotation block scaled through by length2: polynomial entries,
used to factor `rotateMat q = (1/length2) • rotatePoly q` in proofs. -/
def rotatePoly (q : Quat) : Mat4 :=
  ⟨quatLength2 q - 2*(q.y*q.y + q.z*q.z), 2*(q.x*q.y + q.w*q.z), 2*(q.x*q.z - q.w*q.y), 0,
   2*(q.x*q.y - q.w*q.z), quatLength2 q - 2*(q.x*q.x + q.z*q.z), 2*(q.y*q.z + q.w*q.x), 0,
   2*(q.x*q.z + q.w*q.y), 2*(q.y*q.z - q.w*q.x), quatLength2 q - 2*(q.x*q.x + q.y*q.y), 0,
   0, 0, 0, quatLength2 q⟩

/-- osg::operator*(const Vec3d&, const Matrixd&) = Matrixd::preMult(v): row
vector times matrix with homogeneous divide d = 1/(v.x*m03 + v.y*m13 + v.z*m23 + m33).
This is the `osg::Vec3d(0., 0., -_distance) * matrix` of setByMatrix (line 248). -/
def preMultVec3 (v : Vec3) (m : Mat4) : Vec3 :=
  ⟨(m.m00*v.x + m.m10*v.y + m.m20*v.z + m.m30) * (1 / (m.m03*v.x + m.m13*v.y + m.m23*v.z + m.m33)),
   (m.m01*v.x + m.m11*v.y + m.m21*v.z + m.m31) * (1 / (m.m03*v.x + m.m13*v.y + m.m23*v.z + m.m33)),
   (m.m02*v.x + m.m12*v.y + m.m22*v.z + m.m32) * (1 / (m.m03*v.x + m.m13*v.y + m.m23*v.z + m.m33))⟩

/-- osg::Matrixd::getRotate, the trace-maximising branch selection from
Matrix_implementation::getRotate: tq[0..3] are the four shifted traces, the
`for(i=1..3) j = (tq[i]>tq[j]) ? i : j` argmax loop is unfolded into nested
conditionals (strict comparison, ties keep the earlier index), then the branch
formula divides by s = sqrt(0.25/tq[j]). -/
def getRotate (m : Mat4) : Quat :=
  if 1 + m.m00 - m.m11 - m.m22 > 1 + m.m00 + m.m11 + m.m22 then
    -- j ∈ {1, 2, 3}
    if 1 - m.m00 + m.m11 - m.m22 > 1 + m.m00 - m.m11 - m.m22 then
      if 1 - m.m00 - m.m11 + m.m22 > 1 - m.m00 + m.m11 - m.m22 then
        ⟨(m.m20 + m.m02) * ratSqrt ((1/4) / (1 - m.m00 - m.m11 + m.m22)),
         (m.m12 + m.m21) * ratSqrt ((1/4) / (1 - m.m00 - m.m11 + m.m22)),
         (1 - m.m00 - m.m11 + m.m22) * ratSqrt ((1/4) / (1 - m.m00 - m.m11 + m.m22)),
         (m.m01 - m.m10) * ratSqrt ((1/4) / (1 - m.m00 - m.m11 + m.m22))⟩
      else
        ⟨(m.m01 + m.m10) * ratSqrt ((1/4) / (1 - m.m00 + m.m11 - m.m22)),
         (1 - m.m00 + m.m11 - m.m22) * ratSqrt ((1/4) / (1 - m.m00 + m.m11 - m.m22)),
         (m.m12 + m.m21) * ratSqrt ((1/4) / (1 - m.m00 + m.m11 - m.m22)),
         (m.m20 - m.m02) * ratSqrt ((1/4) / (1 - m.m00 + m.m11 - m.m22))⟩
    else if 1 - m.m00 - m.m11 + m.m22 > 1 + m.m00 - m.m11 - m.m22 then
      ⟨(m.m20 + m.m02) * ratSqrt ((1/4) / (1 - m.m00 - m.m11 + m.m22)),
       (m.m12 + m.m21) * ratSqrt ((1/4) / (1 - m.m00 - m.m11 + m.m22)),
       (1 - m.m00 - m.m11 + m.m22) * ratSqrt ((1/4) / (1 - m.m00 - m.m11 + m.m22)),
       (m.m01 - m.m10) * ratSqrt ((1/4) / (1 - m.m00 - m.m11 + m.m22))⟩
    else
      ⟨(1 + m.m00 - m.m11 - m.m22) * ratSqrt ((1/4) / (1 + m.m00 - m.m11 - m.m22)),
       (m.m01 + m.m10) * ratSqrt ((1/4) / (1 + m.m00 - m.m11 - m.m22)),
       (m.m20 + m.m02) * ratSqrt ((1/4) / (1 + m.m00 - m.m11 - m.m22)),
       (m.m12 - m.m21) * ratSqrt ((1/4) / (1 + m.m00 - m.m11 - m.m22))⟩
  else
    if 1 - m.m00 + m.m11 - m.m22 > 1 + m.m00 + m.m11 + m.m22 then
      if 1 - m.m00 - m.m11 + m.m22 > 1 - m.m00 + m.m11 - m.m22 then
        ⟨(m.m20 + m.m02) * ratSqrt ((1/4) / (1 - m.m00 - m.m11 + m.m22)),
         (m.m12 + m.m21) * ratSqrt ((1/4) / (1 - m.m00 - m.m11 + m.m22)),
         (1 - m.m00 - m.m11 + m.m22) * ratSqrt ((1/4) / (1 - m.m00 - m.m11 + m.m22)),
         (m.m01 - m.m10) * ratSqrt ((1/4) / (1 - m.m00 - m.m11 + m.m22))⟩
      else
        ⟨(m.m01 + m.m10) * ratSqrt ((1/4) / (1 - m.m00 + m.m11 - m.m22)),
         (1 - m.m00 + m.m11 - m.m22) * ratSqrt ((1/4) / (1 - m.m00 + m.m11 - m.m22)),
         (m.m12 + m.m21) * ratSqrt ((1/4) / (1 - m.m00 + m.m11 - m.m22)),
         (m.m20 - m.m02) * ratSqrt ((1/4) / (1 - m.m00 + m.m11 - m.m22))⟩
    else if 1 - m.m00 - m.m11 + m.m22 > 1 + m.m00 + m.m11 + m.m22 then
      ⟨(m.m20 + m.m02) * ratSqrt ((1/4) / (1 - m.m00 - m.m11 + m.m22)),
       (m.m12 + m.m21) * ratSqrt ((1/4) / (1 - m.m00 - m.m11 + m.m22)),
       (1 - m.m00 - m.m11 + m.m22) * ratSqrt ((1/4) / (1 - m.m00 - m.m11 + m.m22)),
       (m.m01 - m.m10) * ratSqrt ((1/4) / (1 - m.m00 - m.m11 + m.m22))⟩
    else
      ⟨(m.m12 - m.m21) * ratSqrt ((1/4) / (1 + m.m00 + m.m11 + m.m22)),
       (m.m20 - m.m02) * ratSqrt ((1/4) / (1 + m.m00 + m.m11 + m.m22)),
       (m.m01 - m.m10) * ratSqrt ((1/4) / (1 + m.m00 + m.m11 + m.m22)),
       (1 + m.m00 + m.m11 + m.m22) * ratSqrt ((1/4) / (1 + m.m00 + m.m11 + m.m22))⟩

/-- The ManipulatorMode enum of GUIOSGManipulator.h. -/
inductive ManipulatorMode where
  | MODE_EGO
  | MODE_WALK
  | MODE_TERRAIN
deriving DecidableEq

export ManipulatorMode (MODE_EGO MODE_WALK MODE_TERRAIN)

/-- The key codes the manipulator inspects (osgGA::GUIEventAdapter::KEY_*);
`other` stands for every remaining key code. -/
inductive KeyCode where
  | KEY_Up
  | KEY_Down
  | KEY_Right
  | KEY_Left
  | KEY_F
  | other (code : ℕ)
deriving DecidableEq

/-- One stored pointer sample (the fields of an osgGA::GUIEventAdapter that
handleMouseDeltaMovement reads: getTime, getXnormalized, getYnormalized). -/
structure PointerEvent where
  time : ℚ
  xNormalized : ℚ
  yNormalized : ℚ
deriving DecidableEq

/-- The manipulator state: the GUIOSGManipulator members together with the
inherited osgGA state it touches (_center, _rotation, _distance from
StandardManipulator/OrbitManipulator, the _ga_t0/_ga_t1 event queue, and the
vertical-axis-fixed flag set in the constructor). -/
structure MState where
  myCurrentMode : ManipulatorMode
  myWalkEyeHeight : ℚ
  myMove : Vec3
  myMoveSpeed : ℚ
  verticalAxisFixed : Bool
  center : Vec3
  rotation : Quat
  distance : ℚ
  ga_t0 : Option PointerEvent
  ga_t1 : Option PointerEvent
deriving DecidableEq

/-- The external OSG library routines the manipulator calls whose bodies are
not part of this repository and involve trigonometry: both overloads of
osgGA::StandardManipulator::fixVerticalAxis and angle-axis osg::Quat::makeRotate.
All theorems about code paths that reach them quantify over this bundle. -/
structure OsgExt where
  fixVerticalAxisRot : Quat → Vec3 → Bool → Quat
  fixVerticalAxisPos : Vec3 → Quat → Bool → Vec3 × Quat
  makeRotate : ℚ → Vec3 → Quat

/-- GUIOSGManipulator::getMatrix (lines 256-265): Terrain mode composes
translate(0,0,distance) * rotate(rotation) * translate(center); other modes use
rotate(rotation) * translate(eye) with eye = center - rotation*(0,0,-distance).
The C++ stores eye in a float Vec3f; both getMatrix and getInverseMatrix apply
the same narrowing, modelled exactly here. -/
def getMatrix (st : MState) : Mat4 :=
  if st.myCurrentMode = MODE_TERRAIN then
    matMul (matMul (translateMat ⟨0, 0, st.distance⟩) (rotateMat st.rotation))
      (translateMat st.center)
  else
    matMul (rotateMat st.rotation)
      (translateMat (st.center - quatApply st.rotation ⟨0, 0, -st.distance⟩))

/-- GUIOSGManipulator::getInverseMatrix (lines 268-277): the algebraic inverse
built from negated translations and rotation.inverse(). -/
def getInverseMatrix (st : MState) : Mat4 :=
  if st.myCurrentMode = MODE_TERRAIN then
    matMul (matMul (translateMat (-st.center)) (rotateMat (quatInverse st.rotation)))
      (translateMat ⟨0, 0, -st.distance⟩)
  else
    matMul (translateMat (-(st.center - quatApply st.rotation ⟨0, 0, -st.distance⟩)))
      (rotateMat (quatInverse st.rotation))

/-- GUIOSGManipulator::setByMatrix (lines 246-253): center := (0,0,-distance) * matrix,
rotation := matrix.getRotate(); if the vertical axis is fixed, re-level through
the external fixVerticalAxis(center, rotation, true). -/
def setByMatrix (ext : OsgExt) (st : MState) (matrix : Mat4) : MState :=
  if st.verticalAxisFixed then
    { st with
      center := (ext.fixVerticalAxisPos (preMultVec3 ⟨0, 0, -st.distance⟩ matrix)
        (getRotate matrix) true).1
      rotation := (ext.fixVerticalAxisPos (preMultVec3 ⟨0, 0, -st.distance⟩ matrix)
        (getRotate matrix) true).2 }
  else
    { st with
      center := preMultVec3 ⟨0, 0, -st.distance⟩ matrix
      rotation := getRotate matrix }

/-- The `verticalAxisFixed = (localUp != osg::Vec3d(0., 0., 0.))` test of
rotateYawPitch (line 143). -/
def vecIsNonzero (v : Vec3) : Bool := if v = ⟨0, 0, 0⟩ then false else true

/-- The rotation after the initial re-levelling of rotateYawPitch (lines 145-147):
the reference parameter `rotation` after `fixVerticalAxis(rotation, localUp, true)`
when the up axis is non-zero. -/
def ypFixedRotation (ext : OsgExt) (rotation : Quat) (localUp : Vec3) : Quat :=
  if vecIsNonzero localUp then ext.fixVerticalAxisRot rotation localUp true else rotation

/-- The yaw rotation of rotateYawPitch (line 150): osg::Quat rotateYaw(-yaw, axis)
with axis = localUp when fixed, else the camera's current local up rotation*(0,1,0). -/
def ypRotateYaw (ext : OsgExt) (rotation : Quat) (yaw : ℚ) (localUp : Vec3) : Quat :=
  ext.makeRotate (-yaw)
    (if vecIsNonzero localUp then localUp
     else quatApply (ypFixedRotation ext rotation localUp) ⟨0, 1, 0⟩)

/-- The camera right axis of rotateYawPitch (line 153): rotation * (1,0,0) after
the initial re-levelling. -/
def ypCameraRight (ext : OsgExt) (rotation : Quat) (localUp : Vec3) : Vec3 :=
  quatApply (ypFixedRotation ext rotation localUp) ⟨1, 0, 0⟩

/-- One loop candidate of rotateYawPitch (lines 159-165): rotatePitch.makeRotate
(my_dy, cameraRight); newRotation = rotation * rotateYaw * rotatePitch; re-level
when the vertical axis is fixed. -/
def candRotation (ext : OsgExt) (rotation rotateYaw : Quat) (cameraRight localUp : Vec3)
    (vaf : Bool) (my_dy : ℚ) : Quat :=
  if vaf then
    ext.fixVerticalAxisRot
      (quatMul (quatMul rotation rotateYaw) (ext.makeRotate my_dy cameraRight)) localUp false
  else
    quatMul (quatMul rotation rotateYaw) (ext.makeRotate my_dy cameraRight)

/-- Outcome of the rotateYawPitch candidate loop: either a candidate was accepted
(line 172 installs rotate(newRotation)*translate(eye)) or all attempts failed and
line 178 installs the yaw-only fallback rotate(rotation)*rotate(rotateYaw)*translate(eye). -/
inductive YPResult where
  | accepted (newRotation : Quat)
  | yawOnly (rotation rotateYaw : Quat)
deriving DecidableEq

/-- The do-while retry loop of rotateYawPitch (lines 158-181).  `i` is the
source's attempt counter (`if (++i == 20)` on line 176 triggers the fallback),
`my_dy` the current pitch (halved on each rejection, line 175).  `fuel` is a
Lean termination artifact: the entry point passes 20, so the `i + 1 = 20` test
always fires before fuel can run out, and the fuel-exhausted branch repeats the
fallback result.  The second component returned is the number of halvings
performed (the final value of `i`). -/
def rotateYawPitchGo (ext : OsgExt) (rotation rotateYaw : Quat) (cameraRight localUp : Vec3)
    (vaf : Bool) : ℕ → ℕ → ℚ → YPResult × ℕ
  | 0, i, _ => (.yawOnly rotation rotateYaw, i)
  | fuel+1, i, my_dy =>
    if 0 < vdot (quatApply (candRotation ext rotation rotateYaw cameraRight localUp vaf my_dy)
        ⟨0, 1, 0⟩) localUp then
      (.accepted (candRotation ext rotation rotateYaw cameraRight localUp vaf my_dy), i)
    else if i + 1 = 20 then
      (.yawOnly rotation rotateYaw, i + 1)
    else
      rotateYawPitchGo ext rotation rotateYaw cameraRight localUp vaf fuel (i + 1) (my_dy / 2)

/-- The rotation chosen by GUIOSGManipulator::rotateYawPitch together with the
number of pitch halvings it performed, for a manipulator whose current rotation
state is `rotation`. -/
def rotateYawPitchResult (ext : OsgExt) (rotation : Quat) (yaw pitch : ℚ) (localUp : Vec3) :
    YPResult × ℕ :=
  rotateYawPitchGo ext (ypFixedRotation ext rotation localUp)
    (ypRotateYaw ext rotation yaw localUp) (ypCameraRight ext rotation localUp) localUp
    (vecIsNonzero localUp) 20 0 pitch

/-- GUIOSGManipulator::rotateYawPitch (lines 141-182) as a state transformer:
the initial fixVerticalAxis mutates _rotation through the reference parameter,
the eye anchor is captured once from the pre-loop state (line 157), and the
chosen rotation is installed through setByMatrix. -/
def rotateYawPitch (ext : OsgExt) (st : MState) (yaw pitch : ℚ) (localUp : Vec3) : MState :=
  match rotateYawPitchResult ext st.rotation yaw pitch localUp with
  | (.accepted newRotation, _) =>
    setByMatrix ext { st with rotation := ypFixedRotation ext st.rotation localUp }
      (matMul (rotateMat newRotation)
        (translateMat ({ st with rotation := ypFixedRotation ext st.rotation localUp }.center -
          quatApply (ypFixedRotation ext st.rotation localUp) ⟨0, 0, -st.distance⟩)))
  | (.yawOnly r ry, _) =>
    setByMatrix ext { st with rotation := ypFixedRotation ext st.rotation localUp }
      (matMul (matMul (rotateMat r) (rotateMat ry))
        (translateMat ({ st with rotation := ypFixedRotation ext st.rotation localUp }.center -
          quatApply (ypFixedRotation ext st.rotation localUp) ⟨0, 0, -st.distance⟩)))

/-- GUIOSGManipulator::performMouseDeltaMovement (lines 134-138): rotate around
_rotation by (dx, dy) against the fixed osg::Z_AXIS, then report handled. -/
def performMouseDeltaMovement (ext : OsgExt) (st : MState) (dx dy : ℚ) : Bool × MState :=
  (true, rotateYawPitch ext st dx dy ⟨0, 0, 1⟩)

/-- osgGA::StandardManipulator::addMouseEvent: push the event into the two-sample
queue (_ga_t1 := _ga_t0; _ga_t0 := ea). -/
def addMouseEvent (st : MState) (ea : PointerEvent) : MState :=
  { st with ga_t1 := st.ga_t0, ga_t0 := some ea }

/-- GUIOSGManipulator::handleMouseDeltaMovement (lines 117-131): store the event;
bail out (false) if fewer than two samples exist; compute dt = t0.time - t1.time,
dx = t0.xNormalized * dt, dy = t0.yNormalized * dt; bail out (false) if both are
zero; otherwise re-center the pointer (a request to the windowing layer with no
effect on this state) and perform the delta movement.  The returned state pairs
the handled flag with the mutated manipulator. -/
def handleMouseDeltaMovement (ext : OsgExt) (st : MState) (ea : PointerEvent) : Bool × MState :=
  match (addMouseEvent st ea).ga_t0, (addMouseEvent st ea).ga_t1 with
  | some t0, some t1 =>
    if t0.xNormalized * (t0.time - t1.time) = 0 ∧ t0.yNormalized * (t0.time - t1.time) = 0 then
      (false, addMouseEvent st ea)
    else
      performMouseDeltaMovement ext (addMouseEvent st ea)
        (t0.xNormalized * (t0.time - t1.time)) (t0.yNormalized * (t0.time - t1.time))
  | _, _ => (false, addMouseEvent st ea)

/-- GUIOSGManipulator::handleMouseMove (lines 108-114): delegate to
handleMouseDeltaMovement in Ego/Walk mode, otherwise false without touching state. -/
def handleMouseMove (ext : OsgExt) (st : MState) (ea : PointerEvent) : Bool × MState :=
  if st.myCurrentMode = MODE_EGO ∨ st.myCurrentMode = MODE_WALK then
    handleMouseDeltaMovement ext st ea
  else
    (false, st)

/-- The three osgGA::TerrainManipulator base-class drag behaviours that the
overrides dispatch to.  Their bodies live in the external library; the claims
are about which one is invoked with which arguments, so they are parameters. -/
structure TerrainBase where
  performMovementLeftMouseButton : ℚ → ℚ → ℚ → Bool
  performMovementMiddleMouseButton : ℚ → ℚ → ℚ → Bool
  performMovementRightMouseButton : ℚ → ℚ → ℚ → Bool

/-- GUIOSGManipulator::performMovementLeftMouseButton (lines 81-87): in Terrain
mode call the base class MIDDLE-button behaviour with (dt, dx, dy); else false. -/
def performMovementLeftMouseButton (base : TerrainBase) (st : MState)
    (eventTimeDelta dx dy : ℚ) : Bool :=
  if st.myCurrentMode = MODE_TERRAIN then
    base.performMovementMiddleMouseButton eventTimeDelta dx dy
  else
    false

/-- GUIOSGManipulator::performMovementMiddleMouseButton (lines 90-96): in Terrain
mode call the base class LEFT-button behaviour with (dt, dx, dy); else false. -/
def performMovementMiddleMouseButton (base : TerrainBase) (st : MState)
    (eventTimeDelta dx dy : ℚ) : Bool :=
  if st.myCurrentMode = MODE_TERRAIN then
    base.performMovementLeftMouseButton eventTimeDelta dx dy
  else
    false

/-- GUIOSGManipulator::performMovementRightMouseButton (lines 99-105): in Terrain
mode call the base class right-button behaviour with (dt, dx, -dy); else false. -/
def performMovementRightMouseButton (base : TerrainBase) (st : MState)
    (eventTimeDelta dx dy : ℚ) : Bool :=
  if st.myCurrentMode = MODE_TERRAIN then
    base.performMovementRightMouseButton eventTimeDelta dx (-dy)
  else
    false

/-- GUIOSGManipulator::handleKeyDown (lines 185-208): arrow keys accumulate into
myMove (Up: z -= speed, Down: z += speed, Right: x += speed, Left: x -= speed)
and set result = true; every other key leaves myMove alone with result = false;
then, unconditionally, _center += getMatrix().getRotate() * myMove. -/
def handleKeyDown (st : MState) (key : KeyCode) : Bool × MState :=
  match key with
  | .KEY_Up =>
    (true, { st with
      myMove := ⟨st.myMove.x, st.myMove.y, st.myMove.z - st.myMoveSpeed⟩
      center := st.center + quatApply (getRotate (getMatrix st))
        ⟨st.myMove.x, st.myMove.y, st.myMove.z - st.myMoveSpeed⟩ })
  | .KEY_Down =>
    (true, { st with
      myMove := ⟨st.myMove.x, st.myMove.y, st.myMove.z + st.myMoveSpeed⟩
      center := st.center + quatApply (getRotate (getMatrix st))
        ⟨st.myMove.x, st.myMove.y, st.myMove.z + st.myMoveSpeed⟩ })
  | .KEY_Right =>
    (true, { st with
      myMove := ⟨st.myMove.x + st.myMoveSpeed, st.myMove.y, st.myMove.z⟩
      center := st.center + quatApply (getRotate (getMatrix st))
        ⟨st.myMove.x + st.myMoveSpeed, st.myMove.y, st.myMove.z⟩ })
  | .KEY_Left =>
    (true, { st with
      myMove := ⟨st.myMove.x - st.myMoveSpeed, st.myMove.y, st.myMove.z⟩
      center := st.center + quatApply (getRotate (getMatrix st))
        ⟨st.myMove.x - st.myMoveSpeed, st.myMove.y, st.myMove.z⟩ })
  | _ =>
    (false, { st with
      center := st.center + quatApply (getRotate (getMatrix st)) st.myMove })

/-- The mode cycle of the KEY_F case of handleKeyUp (lines 221-232): Ego and Walk
go to Terrain, everything else (i.e. Terrain) goes to Ego. -/
def toggleMode (m : ManipulatorMode) : ManipulatorMode :=
  if m = MODE_EGO then MODE_TERRAIN
  else if m = MODE_WALK then MODE_TERRAIN
  else MODE_EGO

/-- GUIOSGManipulator::handleKeyUp (lines 211-235): any of the four movement keys
zeroes the whole myMove vector (fall-through cases) and returns true; KEY_F
cycles the mode and returns true; everything else returns false untouched. -/
def handleKeyUp (st : MState) (key : KeyCode) : Bool × MState :=
  match key with
  | .KEY_Up => (true, { st with myMove := ⟨0, 0, 0⟩ })
  | .KEY_Down => (true, { st with myMove := ⟨0, 0, 0⟩ })
  | .KEY_Right => (true, { st with myMove := ⟨0, 0, 0⟩ })
  | .KEY_Left => (true, { st with myMove := ⟨0, 0, 0⟩ })
  | .KEY_F => (true, { st with myCurrentMode := toggleMode st.myCurrentMode })
  | _ => (false, st)

/-! ### General algebraic lemmas about the embedded OSG primitives -/

theorem Vec3.add_def (a b : Vec3) : a + b = ⟨a.x + b.x, a.y + b.y, a.z + b.z⟩ := rfl

theorem Vec3.neg_def (a : Vec3) : -a = ⟨-a.x, -a.y, -a.z⟩ := rfl

theorem Vec3.sub_def (a b : Vec3) : a - b = ⟨a.x - b.x, a.y - b.y, a.z - b.z⟩ := rfl

theorem quatLength2_conj (q : Quat) : quatLength2 (quatConj q) = quatLength2 q := by
  simp only [quatLength2, quatConj]
  ring

theorem rotateMat_eq_smul (q : Quat) (h : quatLength2 q ≠ 0) :
    rotateMat q = matSmul (1 / quatLength2 q) (rotatePoly q) := by
  rw [rotateMat, if_neg h]
  ext <;> simp only [matSmul, rotatePoly] <;> field_simp <;> ring

theorem matMul_smul_left (c : ℚ) (a b : Mat4) :
    matMul (matSmul c a) b = matSmul c (matMul a b) := by
  ext <;> simp only [matMul, matSmul] <;> ring

theorem matMul_smul_right (c : ℚ) (a b : Mat4) :
    matMul a (matSmul c b) = matSmul c (matMul a b) := by
  ext <;> simp only [matMul, matSmul] <;> ring

theorem matSmul_matSmul (c d : ℚ) (m : Mat4) : matSmul c (matSmul d m) = matSmul (c * d) m := by
  ext <;> simp only [matSmul] <;> ring

theorem matSmul_one_smul (m : Mat4) : matSmul 1 m = m := by
  ext <;> simp [matSmul]

theorem rotatePoly_mul_conj (q : Quat) :
    matMul (rotatePoly q) (rotatePoly (quatConj q)) =
      matSmul (quatLength2 q * quatLength2 q) matIdentity := by
  ext <;> simp only [matMul, rotatePoly, matSmul, matIdentity, quatConj, quatLength2] <;> ring

theorem rotateMat_mul_conj (q : Quat) (h : quatLength2 q ≠ 0) :
    matMul (rotateMat q) (rotateMat (quatConj q)) = matIdentity := by
  have hc : quatLength2 (quatConj q) ≠ 0 := by rw [quatLength2_conj]; exact h
  rw [rotateMat_eq_smul q h, rotateMat_eq_smul (quatConj q) hc, quatLength2_conj,
    matMul_smul_left, matMul_smul_right, matSmul_matSmul, rotatePoly_mul_conj, matSmul_matSmul]
  have hs : 1 / quatLength2 q * (1 / quatLength2 q) * (quatLength2 q * quatLength2 q) = 1 := by
    field_simp
  rw [hs, matSmul_one_smul]

theorem quatLength2_scale (c : ℚ) (q : Quat) :
    quatLength2 ⟨c * q.x, c * q.y, c * q.z, c * q.w⟩ = c * c * quatLength2 q := by
  simp only [quatLength2]
  ring

theorem rotatePoly_scale (c : ℚ) (q : Quat) :
    rotatePoly ⟨c * q.x, c * q.y, c * q.z, c * q.w⟩ = matSmul (c * c) (rotatePoly q) := by
  ext <;> simp only [rotatePoly, matSmul, quatLength2] <;> ring

theorem rotateMat_scale (c : ℚ) (q : Quat) (hc : c ≠ 0) (hq : quatLength2 q ≠ 0) :
    rotateMat ⟨c * q.x, c * q.y, c * q.z, c * q.w⟩ = rotateMat q := by
  have h' : quatLength2 ⟨c * q.x, c * q.y, c * q.z, c * q.w⟩ ≠ 0 := by
    rw [quatLength2_scale]
    exact mul_ne_zero (mul_ne_zero hc hc) hq
  rw [rotateMat_eq_smul _ h', rotateMat_eq_smul q hq, quatLength2_scale, rotatePoly_scale,
    matSmul_matSmul]
  have hs : 1 / (c * c * quatLength2 q) * (c * c) = 1 / quatLength2 q := by
    field_simp
  rw [hs]

theorem rotateMat_quatInverse (q : Quat) (h : quatLength2 q ≠ 0) :
    rotateMat (quatInverse q) = rotateMat (quatConj q) := by
  have hrepr : quatInverse q =
      ⟨(1 / quatLength2 q) * (quatConj q).x, (1 / quatLength2 q) * (quatConj q).y,
       (1 / quatLength2 q) * (quatConj q).z, (1 / quatLength2 q) * (quatConj q).w⟩ := by
    ext <;> simp only [quatInverse, quatConj] <;> ring
  rw [hrepr]
  apply rotateMat_scale
  · exact one_div_ne_zero h
  · rw [quatLength2_conj]; exact h

theorem translateMat_mul (a b : Vec3) :
    matMul (translateMat a) (translateMat b) = translateMat (a + b) := by
  ext <;> simp only [matMul, translateMat, Vec3.add_def] <;> ring

theorem translateMat_zero : translateMat ⟨0, 0, 0⟩ = matIdentity := by
  ext <;> simp [translateMat, matIdentity]

theorem matMul_assoc (a b c : Mat4) : matMul (matMul a b) c = matMul a (matMul b c) := by
  ext <;> simp only [matMul] <;> ring

theorem matMul_one (m : Mat4) : matMul m matIdentity = m := by
  ext <;> simp [matMul, matIdentity]

theorem one_matMul (m : Mat4) : matMul matIdentity m = m := by
  ext <;> simp [matMul, matIdentity]

theorem natSqrtGo_mul_self (m : ℕ) : ∀ k, m ≤ k → natSqrtGo (m * m) k = m := by
  intro k
  induction k with
  | zero =>
    intro hm
    have : m = 0 := Nat.le_zero.mp hm
    subst this
    rfl
  | succ k ih =>
    intro hm
    rw [natSqrtGo]
    by_cases h : (k + 1) * (k + 1) ≤ m * m
    · rw [if_pos h]
      have h1 : k + 1 ≤ m := by
        by_contra hcon
        push_neg at hcon
        have h2 : m * m < (k + 1) * (k + 1) :=
          Nat.mul_lt_mul_of_lt_of_le hcon (Nat.le_of_lt hcon) (Nat.succ_pos k)
        omega
      omega
    · rw [if_neg h]
      apply ih
      have : m ≠ k + 1 := by
        rintro rfl
        exact h (le_refl _)
      omega

theorem natSqrt_mul_self (m : ℕ) : natSqrt (m * m) = m := by
  apply natSqrtGo_mul_self
  cases m with
  | zero => exact Nat.le_refl 0
  | succ n => exact Nat.le_mul_of_pos_left _ (Nat.succ_pos n)

theorem ratSqrt_mul_self (r : ℚ) (h : 0 ≤ r) : ratSqrt (r * r) = r := by
  have hnum : 0 ≤ r.num := Rat.num_nonneg.mpr h
  obtain ⟨n, hn⟩ := Int.eq_ofNat_of_zero_le hnum
  rw [ratSqrt, Rat.mul_self_num, Rat.mul_self_den, hn]
  rw [show ((n : ℤ) * (n : ℤ)).toNat = n * n by rw [← Nat.cast_mul, Int.toNat_natCast]]
  rw [natSqrt_mul_self, natSqrt_mul_self]
  conv_rhs => rw [← Rat.num_div_den r, hn]
  push_cast
  ring

/-! ### Claim theorems -/

/-- C3: getViewMatrix in Orbit/Terrain mode returns exactly
translate(0,0,distance) * rotate(rotation) * translate(center); in particular a
Terrain-mode controller with distance = 10, center = (0,0,0) and identity
rotation yields exactly translate(0,0,10). -/
theorem getMatrix_terrain_spec :
    (∀ st : MState, st.myCurrentMode = MODE_TERRAIN →
      getMatrix st =
        matMul (matMul (translateMat ⟨0, 0, st.distance⟩) (rotateMat st.rotation))
          (translateMat st.center)) ∧
    getMatrix ⟨MODE_TERRAIN, 0, ⟨0, 0, 0⟩, 1, false, ⟨0, 0, 0⟩, quatIdent, 10, none, none⟩ =
      translateMat ⟨0, 0, 10⟩ := by
  constructor
  · intro st hm
    rw [getMatrix, if_pos hm]
  · norm_num [getMatrix, matMul, translateMat, rotateMat, quatLength2, quatIdent]

/-- C3 witness: the general Terrain-mode shape instantiated at a concrete state. -/
theorem getMatrix_terrain_spec_witness :
    getMatrix ⟨MODE_TERRAIN, 0, ⟨0, 0, 0⟩, 1, false, ⟨1, 2, 3⟩, ⟨0, 0, 0, 1⟩, 5, none, none⟩ =
      matMul (matMul (translateMat ⟨0, 0, 5⟩) (rotateMat ⟨0, 0, 0, 1⟩)) (translateMat ⟨1, 2, 3⟩) :=
  getMatrix_terrain_spec.1 ⟨MODE_TERRAIN, 0, ⟨0, 0, 0⟩, 1, false, ⟨1, 2, 3⟩, ⟨0, 0, 0, 1⟩, 5, none, none⟩ rfl

/-- C6: in Terrain mode the left-button drag handler invokes the base library's
middle-button behaviour with (dt,dx,dy), the middle-button handler invokes the
base left-button behaviour with (dt,dx,dy), and the right-button handler invokes
the base right-button behaviour with (dt,dx,-dy); in any other mode all three
return false without consulting the base behaviours. -/
theorem performMovement_button_dispatch :
    ∀ (base : TerrainBase) (st : MState) (eventTimeDelta dx dy : ℚ),
      (st.myCurrentMode = MODE_TERRAIN →
        performMovementLeftMouseButton base st eventTimeDelta dx dy =
          base.performMovementMiddleMouseButton eventTimeDelta dx dy ∧
        performMovementMiddleMouseButton base st eventTimeDelta dx dy =
          base.performMovementLeftMouseButton eventTimeDelta dx dy ∧
        performMovementRightMouseButton base st eventTimeDelta dx dy =
          base.performMovementRightMouseButton eventTimeDelta dx (-dy)) ∧
      (st.myCurrentMode ≠ MODE_TERRAIN →
        performMovementLeftMouseButton base st eventTimeDelta dx dy = false ∧
        performMovementMiddleMouseButton base st eventTimeDelta dx dy = false ∧
        performMovementRightMouseButton base st eventTimeDelta dx dy = false) := by
  intro base st dt dx dy
  constructor
  · intro hm
    refine ⟨?_, ?_, ?_⟩ <;>
      simp [performMovementLeftMouseButton, performMovementMiddleMouseButton,
        performMovementRightMouseButton, hm]
  · intro hm
    refine ⟨?_, ?_, ?_⟩ <;>
      simp [performMovementLeftMouseButton, performMovementMiddleMouseButton,
        performMovementRightMouseButton, hm]

/-- C6 witness: the Terrain-mode dispatch at a concrete base and state. -/
theorem performMovement_button_dispatch_witness :
    performMovementLeftMouseButton ⟨fun _ _ _ => false, fun _ _ _ => true, fun _ _ _ => false⟩
        ⟨MODE_TERRAIN, 0, ⟨0, 0, 0⟩, 1, false, ⟨0, 0, 0⟩, quatIdent, 1, none, none⟩ 1 2 3 =
      TerrainBase.performMovementMiddleMouseButton
        ⟨fun _ _ _ => false, fun _ _ _ => true, fun _ _ _ => false⟩ 1 2 3 ∧
    performMovementMiddleMouseButton ⟨fun _ _ _ => false, fun _ _ _ => true, fun _ _ _ => false⟩
        ⟨MODE_TERRAIN, 0, ⟨0, 0, 0⟩, 1, false, ⟨0, 0, 0⟩, quatIdent, 1, none, none⟩ 1 2 3 =
      TerrainBase.performMovementLeftMouseButton
        ⟨fun _ _ _ => false, fun _ _ _ => true, fun _ _ _ => false⟩ 1 2 3 ∧
    performMovementRightMouseButton ⟨fun _ _ _ => false, fun _ _ _ => true, fun _ _ _ => false⟩
        ⟨MODE_TERRAIN, 0, ⟨0, 0, 0⟩, 1, false, ⟨0, 0, 0⟩, quatIdent, 1, none, none⟩ 1 2 3 =
      TerrainBase.performMovementRightMouseButton
        ⟨fun _ _ _ => false, fun _ _ _ => true, fun _ _ _ => false⟩ 1 2 (-3) :=
  (performMovement_button_dispatch ⟨fun _ _ _ => false, fun _ _ _ => true, fun _ _ _ => false⟩
    ⟨MODE_TERRAIN, 0, ⟨0, 0, 0⟩, 1, false, ⟨0, 0, 0⟩, quatIdent, 1, none, none⟩ 1 2 3).1 rfl

/-- C8: a key-up of any movement key (Up, Down, Left, Right) sets the whole
MoveVector to (0,0,0) and returns true; in particular key-down Up followed by
key-up Up leaves MoveVector = (0,0,0). -/
theorem handleKeyUp_clears_whole_move :
    (∀ (st : MState) (key : KeyCode),
      (key = .KEY_Up ∨ key = .KEY_Down ∨ key = .KEY_Right ∨ key = .KEY_Left) →
      handleKeyUp st key = (true, { st with myMove := ⟨0, 0, 0⟩ })) ∧
    ∀ st : MState, ((handleKeyUp (handleKeyDown st .KEY_Up).2 .KEY_Up).2).myMove = ⟨0, 0, 0⟩ := by
  constructor
  · rintro st key (rfl | rfl | rfl | rfl) <;> rfl
  · intro st
    rfl

/-- C8 witness: key-up Left clears a partially accumulated MoveVector. -/
theorem handleKeyUp_clears_whole_move_witness :
    handleKeyUp ⟨MODE_EGO, 0, ⟨2, 0, -3⟩, 1, false, ⟨0, 0, 0⟩, quatIdent, 1, none, none⟩ .KEY_Left =
      (true, { (⟨MODE_EGO, 0, ⟨2, 0, -3⟩, 1, false, ⟨0, 0, 0⟩, quatIdent, 1, none, none⟩ : MState)
        with myMove := ⟨0, 0, 0⟩ }) :=
  handleKeyUp_clears_whole_move.1
    ⟨MODE_EGO, 0, ⟨2, 0, -3⟩, 1, false, ⟨0, 0, 0⟩, quatIdent, 1, none, none⟩ .KEY_Left
    (Or.inr (Or.inr (Or.inr rfl)))

/-- C9: the mode-toggle key maps Ego to Terrain, Walk to Terrain and Terrain to
Ego; hence no sequence of toggles starting from Ego or Terrain ever reaches
Walk, and two toggles from Ego return to Ego with Terrain in between. -/
theorem toggleMode_cycle_spec :
    (∀ st : MState, handleKeyUp st .KEY_F =
      (true, { st with myCurrentMode := toggleMode st.myCurrentMode })) ∧
    toggleMode MODE_EGO = MODE_TERRAIN ∧
    toggleMode MODE_WALK = MODE_TERRAIN ∧
    toggleMode MODE_TERRAIN = MODE_EGO ∧
    (∀ (n : ℕ) (m : ManipulatorMode), m ≠ MODE_WALK → toggleMode^[n] m ≠ MODE_WALK) ∧
    toggleMode (toggleMode MODE_EGO) = MODE_EGO := by
  refine ⟨fun st => rfl, by decide, by decide, by decide, ?_, by decide⟩
  intro n
  induction n with
  | zero =>
    intro m hm
    simpa using hm
  | succ k ih =>
    intro m hm
    rw [Function.iterate_succ_apply]
    apply ih
    cases m <;> decide

/-- C9 witness: the Walk-unreachability fact instantiated at two toggles from Ego. -/
theorem toggleMode_cycle_spec_witness : toggleMode^[2] MODE_EGO ≠ MODE_WALK :=
  toggleMode_cycle_spec.2.2.2.2.1 2 MODE_EGO (by decide)

/-- C10: every key-down event, handled or not, translates the center by the
current view rotation (getMatrix().getRotate()) applied to the accumulated
MoveVector as updated by this event; a non-movement key leaves MoveVector
untouched, returns false, and still shifts the center by rotation * MoveVector. -/
theorem handleKeyDown_translates_center :
    (∀ (st : MState) (key : KeyCode),
      ((handleKeyDown st key).2).center =
        st.center + quatApply (getRotate (getMatrix st)) ((handleKeyDown st key).2).myMove) ∧
    ∀ (st : MState) (key : KeyCode),
      ¬(key = .KEY_Up ∨ key = .KEY_Down ∨ key = .KEY_Right ∨ key = .KEY_Left) →
      handleKeyDown st key = (false,
        { st with center := st.center + quatApply (getRotate (getMatrix st)) st.myMove }) := by
  constructor
  · intro st key
    cases key <;> rfl
  · intro st key hk
    cases key with
    | KEY_Up => exact absurd (Or.inl rfl) hk
    | KEY_Down => exact absurd (Or.inr (Or.inl rfl)) hk
    | KEY_Right => exact absurd (Or.inr (Or.inr (Or.inl rfl))) hk
    | KEY_Left => exact absurd (Or.inr (Or.inr (Or.inr rfl))) hk
    | KEY_F => rfl
    | other code => rfl

/-- C10 witness: a key-down of a non-movement key, while MoveVector = (1,0,0) is
still accumulated, reports not handled yet moves the center from the origin to
(1,0,0) (the view rotation being the identity). -/
theorem handleKeyDown_translates_center_witness :
    (handleKeyDown ⟨MODE_TERRAIN, 0, ⟨1, 0, 0⟩, 1, false, ⟨0, 0, 0⟩, ⟨0, 0, 0, 1⟩, 1, none, none⟩
      (.other 42)).1 = false ∧
    (handleKeyDown ⟨MODE_TERRAIN, 0, ⟨1, 0, 0⟩, 1, false, ⟨0, 0, 0⟩, ⟨0, 0, 0, 1⟩, 1, none, none⟩
      (.other 42)).2.center ≠
      (⟨MODE_TERRAIN, 0, ⟨1, 0, 0⟩, 1, false, ⟨0, 0, 0⟩, ⟨0, 0, 0, 1⟩, 1, none, none⟩ : MState).center := by
  have h := handleKeyDown_translates_center.2
    ⟨MODE_TERRAIN, 0, ⟨1, 0, 0⟩, 1, false, ⟨0, 0, 0⟩, ⟨0, 0, 0, 1⟩, 1, none, none⟩
    (.other 42) (by decide)
  rw [h]
  refine ⟨rfl, ?_⟩
  norm_num [getMatrix, getRotate, matMul, translateMat, rotateMat, quatLength2, ratSqrt,
    natSqrt, natSqrtGo, quatApply, vcross, vscale, Vec3.add_def]

theorem rotateYawPitchGo_accepted_dot (ext : OsgExt) (rot ry : Quat) (cr lu : Vec3) (vaf : Bool) :
    ∀ (fuel i : ℕ) (d : ℚ) (q : Quat) (n : ℕ),
      rotateYawPitchGo ext rot ry cr lu vaf fuel i d = (.accepted q, n) →
      0 < vdot (quatApply q ⟨0, 1, 0⟩) lu := by
  intro fuel
  induction fuel with
  | zero =>
    intro i d q n h
    simp [rotateYawPitchGo] at h
  | succ f ih =>
    intro i d q n h
    simp only [rotateYawPitchGo] at h
    by_cases hacc : 0 < vdot (quatApply (candRotation ext rot ry cr lu vaf d) ⟨0, 1, 0⟩) lu
    · rw [if_pos hacc] at h
      injection h with h1 h2
      injection h1 with h3
      rw [← h3]
      exact hacc
    · rw [if_neg hacc] at h
      by_cases h20 : i + 1 = 20
      · rw [if_pos h20] at h
        simp at h
      · rw [if_neg h20] at h
        exact ih (i + 1) (d / 2) q n h

theorem rotateYawPitchGo_count_le (ext : OsgExt) (rot ry : Quat) (cr lu : Vec3) (vaf : Bool) :
    ∀ (fuel i : ℕ) (d : ℚ), i + fuel ≤ 20 →
      (rotateYawPitchGo ext rot ry cr lu vaf fuel i d).2 ≤ 20 := by
  intro fuel
  induction fuel with
  | zero =>
    intro i d h
    simp only [rotateYawPitchGo]
    omega
  | succ f ih =>
    intro i d h
    simp only [rotateYawPitchGo]
    by_cases hacc : 0 < vdot (quatApply (candRotation ext rot ry cr lu vaf d) ⟨0, 1, 0⟩) lu
    · rw [if_pos hacc]
      omega
    · rw [if_neg hacc]
      by_cases h20 : i + 1 = 20
      · rw [if_pos h20]
        omega
      · rw [if_neg h20]
        exact ih (i + 1) (d / 2) (by omega)

theorem rotateYawPitchGo_allFail (ext : OsgExt) (rot ry : Quat) (cr lu : Vec3) (vaf : Bool) :
    ∀ (fuel i : ℕ) (d : ℚ), 1 ≤ fuel → i + fuel = 20 →
      (∀ k, k < fuel →
        ¬(0 < vdot (quatApply (candRotation ext rot ry cr lu vaf (d / 2 ^ k)) ⟨0, 1, 0⟩) lu)) →
      rotateYawPitchGo ext rot ry cr lu vaf fuel i d = (.yawOnly rot ry, 20) := by
  intro fuel
  induction fuel with
  | zero =>
    intro i d h1
    exact absurd h1 (by omega)
  | succ f ih =>
    intro i d _ hsum hfail
    simp only [rotateYawPitchGo]
    have h0 : ¬(0 < vdot (quatApply (candRotation ext rot ry cr lu vaf d) ⟨0, 1, 0⟩) lu) := by
      have h := hfail 0 (Nat.succ_pos f)
      simpa using h
    rw [if_neg h0]
    by_cases h20 : i + 1 = 20
    · rw [if_pos h20, h20]
    · rw [if_neg h20]
      have hf : 1 ≤ f := by omega
      apply ih (i + 1) (d / 2) hf (by omega)
      intro k hk
      have h := hfail (k + 1) (by omega)
      have heq : d / 2 ^ (k + 1) = d / 2 / 2 ^ k := by
        rw [div_div, ← pow_succ']
      rw [heq] at h
      exact h

/-- C1: with a fixed non-zero up axis, every candidate rotation that the
rotateYawPitch retry loop accepts satisfies a strictly positive dot product
between its new local-up vector (candidate applied to (0,1,0)) and the up axis:
the acceptance guard on line 169 is exactly this hemisphere test, so no
accepted candidate is ever installed upside down. -/
theorem rotateYawPitch_accepted_up_hemisphere :
    ∀ (ext : OsgExt) (rotation : Quat) (yaw pitch : ℚ) (localUp : Vec3) (q : Quat) (n : ℕ),
      localUp ≠ ⟨0, 0, 0⟩ →
      rotateYawPitchResult ext rotation yaw pitch localUp = (.accepted q, n) →
      0 < vdot (quatApply q ⟨0, 1, 0⟩) localUp := by
  intro ext rotation yaw pitch lu q n _ h
  exact rotateYawPitchGo_accepted_dot ext (ypFixedRotation ext rotation lu)
    (ypRotateYaw ext rotation yaw lu) (ypCameraRight ext rotation lu) lu (vecIsNonzero lu)
    20 0 pitch q n h

/-- C1 witness: with trivial external fixes and a constant identity makeRotate,
the first candidate is accepted and its local-up (0,1,0) has dot product 1 > 0
with the up axis (0,1,0). -/
theorem rotateYawPitch_accepted_up_hemisphere_witness :
    0 < vdot (quatApply quatIdent ⟨0, 1, 0⟩) ⟨0, 1, 0⟩ :=
  rotateYawPitch_accepted_up_hemisphere
    ⟨fun r _ _ => r, fun c r _ => (c, r), fun _ _ => quatIdent⟩ quatIdent 0 0 ⟨0, 1, 0⟩
    quatIdent 0 (by simp)
    (by norm_num [rotateYawPitchResult, rotateYawPitchGo, candRotation, ypFixedRotation,
      ypRotateYaw, ypCameraRight, vecIsNonzero, quatMul, quatIdent, quatApply, vcross, vscale,
      vdot, Vec3.add_def])

/-- C2: the pitch-clamp retry loop always terminates: when every candidate
(pitch halved k times, k < 20) fails the hemisphere check, the loop performs
exactly 20 halvings and falls back to applying only the yaw component; and on
every input whatsoever the halving counter never exceeds 20 (there is no error
path, only the designed yaw-only degradation). -/
theorem rotateYawPitch_retry_bound :
    (∀ (ext : OsgExt) (rotation : Quat) (yaw pitch : ℚ) (localUp : Vec3),
      (∀ k, k < 20 →
        ¬(0 < vdot (quatApply (candRotation ext (ypFixedRotation ext rotation localUp)
            (ypRotateYaw ext rotation yaw localUp) (ypCameraRight ext rotation localUp) localUp
            (vecIsNonzero localUp) (pitch / 2 ^ k)) ⟨0, 1, 0⟩) localUp)) →
      rotateYawPitchResult ext rotation yaw pitch localUp =
        (.yawOnly (ypFixedRotation ext rotation localUp)
          (ypRotateYaw ext rotation yaw localUp), 20)) ∧
    ∀ (ext : OsgExt) (rotation : Quat) (yaw pitch : ℚ) (localUp : Vec3),
      (rotateYawPitchResult ext rotation yaw pitch localUp).2 ≤ 20 := by
  constructor
  · intro ext rotation yaw pitch lu hfail
    exact rotateYawPitchGo_allFail ext (ypFixedRotation ext rotation lu)
      (ypRotateYaw ext rotation yaw lu) (ypCameraRight ext rotation lu) lu (vecIsNonzero lu)
      20 0 pitch (by omega) (by omega) hfail
  · intro ext rotation yaw pitch lu
    exact rotateYawPitchGo_count_le ext (ypFixedRotation ext rotation lu)
      (ypRotateYaw ext rotation yaw lu) (ypCameraRight ext rotation lu) lu (vecIsNonzero lu)
      20 0 pitch (by omega)

/-- C2 witness: against the real Z up axis, a constant identity makeRotate makes
every candidate's local-up orthogonal to the up axis, so every attempt fails and
the loop ends in the yaw-only fallback after exactly 20 halvings. -/
theorem rotateYawPitch_retry_bound_witness :
    rotateYawPitchResult ⟨fun r _ _ => r, fun c r _ => (c, r), fun _ _ => quatIdent⟩
        quatIdent 0 1 ⟨0, 0, 1⟩ =
      (.yawOnly
        (ypFixedRotation ⟨fun r _ _ => r, fun c r _ => (c, r), fun _ _ => quatIdent⟩
          quatIdent ⟨0, 0, 1⟩)
        (ypRotateYaw ⟨fun r _ _ => r, fun c r _ => (c, r), fun _ _ => quatIdent⟩
          quatIdent 0 ⟨0, 0, 1⟩), 20) :=
  rotateYawPitch_retry_bound.1
    ⟨fun r _ _ => r, fun c r _ => (c, r), fun _ _ => quatIdent⟩ quatIdent 0 1 ⟨0, 0, 1⟩
    (by
      intro k _
      norm_num [candRotation, ypFixedRotation, ypRotateYaw, ypCameraRight, vecIsNonzero,
        quatMul, quatIdent, quatApply, vcross, vscale, vdot, Vec3.add_def])

/-- C4: getInverseViewMatrix is built structurally from rotation.inverse() and
negated translations (first conjunct, definitional for Terrain mode), and in
every mode, for every state with a non-degenerate rotation quaternion,
composing getViewMatrix with getInverseViewMatrix yields the identity
transform. -/
theorem getMatrix_mul_getInverseMatrix :
    (∀ st : MState, st.myCurrentMode = MODE_TERRAIN →
      getInverseMatrix st =
        matMul (matMul (translateMat (-st.center)) (rotateMat (quatInverse st.rotation)))
          (translateMat ⟨0, 0, -st.distance⟩)) ∧
    ∀ st : MState, quatLength2 st.rotation ≠ 0 →
      matMul (getMatrix st) (getInverseMatrix st) = matIdentity := by
  constructor
  · intro st hm
    rw [getInverseMatrix, if_pos hm]
  · intro st hq
    have hBE : matMul (rotateMat st.rotation) (rotateMat (quatInverse st.rotation)) =
        matIdentity := by
      rw [rotateMat_quatInverse _ hq, rotateMat_mul_conj _ hq]
    by_cases hm : st.myCurrentMode = MODE_TERRAIN
    · rw [getMatrix, getInverseMatrix, if_pos hm, if_pos hm]
      have hCD : matMul (translateMat st.center) (translateMat (-st.center)) = matIdentity := by
        rw [translateMat_mul]
        have hv : st.center + -st.center = (⟨0, 0, 0⟩ : Vec3) := by
          ext <;> simp [Vec3.add_def, Vec3.neg_def]
        rw [hv, translateMat_zero]
      have hAF : matMul (translateMat ⟨0, 0, st.distance⟩) (translateMat ⟨0, 0, -st.distance⟩) =
          matIdentity := by
        rw [translateMat_mul]
        have hv : (⟨0, 0, st.distance⟩ : Vec3) + ⟨0, 0, -st.distance⟩ = (⟨0, 0, 0⟩ : Vec3) := by
          ext <;> simp [Vec3.add_def]
        rw [hv, translateMat_zero]
      simp only [matMul_assoc]
      rw [← matMul_assoc (translateMat st.center) (translateMat (-st.center)), hCD, one_matMul,
        ← matMul_assoc (rotateMat st.rotation) (rotateMat (quatInverse st.rotation)), hBE,
        one_matMul, hAF]
    · rw [getMatrix, getInverseMatrix, if_neg hm, if_neg hm]
      have hED : matMul
          (translateMat (st.center - quatApply st.rotation ⟨0, 0, -st.distance⟩))
          (translateMat (-(st.center - quatApply st.rotation ⟨0, 0, -st.distance⟩))) =
          matIdentity := by
        rw [translateMat_mul]
        have hv : st.center - quatApply st.rotation ⟨0, 0, -st.distance⟩ +
            -(st.center - quatApply st.rotation ⟨0, 0, -st.distance⟩) = (⟨0, 0, 0⟩ : Vec3) := by
          ext <;> simp [Vec3.add_def, Vec3.neg_def, Vec3.sub_def]
        rw [hv, translateMat_zero]
      simp only [matMul_assoc]
      rw [← matMul_assoc
          (translateMat (st.center - quatApply st.rotation ⟨0, 0, -st.distance⟩))
          (translateMat (-(st.center - quatApply st.rotation ⟨0, 0, -st.distance⟩))),
        hED, one_matMul, hBE]

/-- C4 witness: the identity composition at a concrete Terrain state with a
non-trivial rotation and center. -/
theorem getMatrix_mul_getInverseMatrix_witness :
    matMul (getMatrix ⟨MODE_TERRAIN, 0, ⟨0, 0, 0⟩, 1, false, ⟨1, 2, 3⟩, ⟨0, 0, 1, 1⟩, 7, none, none⟩)
      (getInverseMatrix ⟨MODE_TERRAIN, 0, ⟨0, 0, 0⟩, 1, false, ⟨1, 2, 3⟩, ⟨0, 0, 1, 1⟩, 7, none, none⟩) =
      matIdentity :=
  getMatrix_mul_getInverseMatrix.2
    ⟨MODE_TERRAIN, 0, ⟨0, 0, 0⟩, 1, false, ⟨1, 2, 3⟩, ⟨0, 0, 1, 1⟩, 7, none, none⟩
    (by norm_num [quatLength2])

/-- C7 counterexample: two consecutive pointer-move events with identical
non-zero normalized coordinates (1/2, 1/2) and non-zero dt are HANDLED
(result true), because the code computes dx = newest.xNormalized * dt — the
newest sample's absolute normalized position scaled by dt, not a difference of
the two samples — so the claim's scenario of returning false is violated. -/
theorem handleMouseDeltaMovement_identical_coords_refuted :
    (handleMouseDeltaMovement ⟨fun r _ _ => r, fun c r _ => (c, r), fun _ _ => quatIdent⟩
      ⟨MODE_EGO, 0, ⟨0, 0, 0⟩, 1, false, ⟨0, 0, 0⟩, quatIdent, 1, some ⟨0, 1/2, 1/2⟩, none⟩
      ⟨1, 1/2, 1/2⟩).1 = true := by
  norm_num [handleMouseDeltaMovement, addMouseEvent, performMouseDeltaMovement]

/-- C7 (amended): handlePointerMove returns false when no prior sample exists,
and likewise when the newest sample's normalized coordinates each scaled by the
time delta are both exactly zero; in those cases only the two-sample history is
pushed, and the camera state (mode, center, rotation, move vector, distance) is
untouched.  Two consecutive identical events yield false only when their
normalized coordinates are zero (the pointer at the view center). -/
theorem handleMouseDeltaMovement_guard :
    (∀ (ext : OsgExt) (st : MState) (ea : PointerEvent),
      st.ga_t0 = none →
      handleMouseDeltaMovement ext st ea = (false, addMouseEvent st ea)) ∧
    (∀ (ext : OsgExt) (st : MState) (ea p : PointerEvent),
      st.ga_t0 = some p →
      ea.xNormalized * (ea.time - p.time) = 0 →
      ea.yNormalized * (ea.time - p.time) = 0 →
      handleMouseDeltaMovement ext st ea = (false, addMouseEvent st ea)) ∧
    ∀ (st : MState) (ea : PointerEvent),
      (addMouseEvent st ea).myCurrentMode = st.myCurrentMode ∧
      (addMouseEvent st ea).center = st.center ∧
      (addMouseEvent st ea).rotation = st.rotation ∧
      (addMouseEvent st ea).myMove = st.myMove ∧
      (addMouseEvent st ea).distance = st.distance := by
  refine ⟨?_, ?_, fun st ea => ⟨rfl, rfl, rfl, rfl, rfl⟩⟩
  · intro ext st ea h
    simp [handleMouseDeltaMovement, addMouseEvent, h]
  · intro ext st ea p h h1 h2
    simp [handleMouseDeltaMovement, addMouseEvent, h, h1, h2]

/-- C7 witness: two consecutive samples at the view center (normalized
coordinates zero) with non-zero dt are indeed rejected with state pushed but
camera untouched. -/
theorem handleMouseDeltaMovement_guard_witness :
    handleMouseDeltaMovement ⟨fun r _ _ => r, fun c r _ => (c, r), fun _ _ => quatIdent⟩
      ⟨MODE_EGO, 0, ⟨0, 0, 0⟩, 1, false, ⟨0, 0, 0⟩, quatIdent, 1, some ⟨0, 0, 0⟩, none⟩
      ⟨1, 0, 0⟩ =
    (false, addMouseEvent
      ⟨MODE_EGO, 0, ⟨0, 0, 0⟩, 1, false, ⟨0, 0, 0⟩, quatIdent, 1, some ⟨0, 0, 0⟩, none⟩
      ⟨1, 0, 0⟩) :=
  handleMouseDeltaMovement_guard.2.1
    ⟨fun r _ _ => r, fun c r _ => (c, r), fun _ _ => quatIdent⟩
    ⟨MODE_EGO, 0, ⟨0, 0, 0⟩, 1, false, ⟨0, 0, 0⟩, quatIdent, 1, some ⟨0, 0, 0⟩, none⟩
    ⟨1, 0, 0⟩ ⟨0, 0, 0⟩ rfl (by norm_num) (by norm_num)

theorem getRotate_of_entries (m : Mat4) (q : Quat)
    (hu : quatLength2 q = 1) (hw : 0 < q.w)
    (hx : q.x * q.x ≤ q.w * q.w) (hy : q.y * q.y ≤ q.w * q.w) (hz : q.z * q.z ≤ q.w * q.w)
    (h00 : m.m00 = 1 - 2*(q.y*q.y + q.z*q.z))
    (h01 : m.m01 = 2*(q.x*q.y + q.w*q.z))
    (h02 : m.m02 = 2*(q.x*q.z - q.w*q.y))
    (h10 : m.m10 = 2*(q.x*q.y - q.w*q.z))
    (h11 : m.m11 = 1 - 2*(q.x*q.x + q.z*q.z))
    (h12 : m.m12 = 2*(q.y*q.z + q.w*q.x))
    (h20 : m.m20 = 2*(q.x*q.z + q.w*q.y))
    (h21 : m.m21 = 2*(q.y*q.z - q.w*q.x))
    (h22 : m.m22 = 1 - 2*(q.x*q.x + q.y*q.y)) :
    getRotate m = q := by
  have hu' : q.x * q.x + q.y * q.y + q.z * q.z + q.w * q.w = 1 := by
    simpa only [quatLength2] using hu
  have hw0 : q.w ≠ 0 := ne_of_gt hw
  rw [getRotate, h00, h01, h02, h10, h11, h12, h20, h21, h22]
  split_ifs with h1 h2 h3 h4 h5 h6 h7
  · exfalso; linarith [hu', hx, hy, hz]
  · exfalso; linarith [hu', hx, hy, hz]
  · exfalso; linarith [hu', hx, hy, hz]
  · exfalso; linarith [hu', hx, hy, hz]
  · exfalso; linarith [hu', hx, hy, hz]
  · exfalso; linarith [hu', hx, hy, hz]
  · exfalso; linarith [hu', hx, hy, hz]
  · have htq0 : (1 : ℚ) + (1 - 2*(q.y*q.y + q.z*q.z)) + (1 - 2*(q.x*q.x + q.z*q.z)) +
        (1 - 2*(q.x*q.x + q.y*q.y)) = 4*(q.w*q.w) := by
      linarith [hu']
    rw [htq0]
    have harg : (1/4 : ℚ) / (4*(q.w*q.w)) = (1/(4*q.w)) * (1/(4*q.w)) := by
      field_simp
      ring
    rw [harg, ratSqrt_mul_self _ (by positivity)]
    ext <;> field_simp <;> ring

theorem getMatrix_terrain_explicit (st : MState) (hm : st.myCurrentMode = MODE_TERRAIN)
    (hu : quatLength2 st.rotation = 1) :
    getMatrix st =
      ⟨1 - 2*(st.rotation.y*st.rotation.y + st.rotation.z*st.rotation.z),
       2*(st.rotation.x*st.rotation.y + st.rotation.w*st.rotation.z),
       2*(st.rotation.x*st.rotation.z - st.rotation.w*st.rotation.y),
       0,
       2*(st.rotation.x*st.rotation.y - st.rotation.w*st.rotation.z),
       1 - 2*(st.rotation.x*st.rotation.x + st.rotation.z*st.rotation.z),
       2*(st.rotation.y*st.rotation.z + st.rotation.w*st.rotation.x),
       0,
       2*(st.rotation.x*st.rotation.z + st.rotation.w*st.rotation.y),
       2*(st.rotation.y*st.rotation.z - st.rotation.w*st.rotation.x),
       1 - 2*(st.rotation.x*st.rotation.x + st.rotation.y*st.rotation.y),
       0,
       st.distance * (2*(st.rotation.x*st.rotation.z + st.rotation.w*st.rotation.y)) + st.center.x,
       st.distance * (2*(st.rotation.y*st.rotation.z - st.rotation.w*st.rotation.x)) + st.center.y,
       st.distance * (1 - 2*(st.rotation.x*st.rotation.x + st.rotation.y*st.rotation.y)) + st.center.z,
       1⟩ := by
  have h0 : quatLength2 st.rotation ≠ 0 := by rw [hu]; norm_num
  rw [getMatrix, if_pos hm, rotateMat, if_neg h0]
  ext <;> simp only [matMul, translateMat] <;> rw [hu] <;> try ring

/-- C5 counterexample: a Terrain-mode state with rotation quaternion (0,0,0,-1)
(which represents the identity rotation with negative scalar part).  Its view
matrix is decomposed by setByMatrix into rotation (0,0,0,1) — the quaternion of
opposite sign — so rotation is NOT restored to its original value. -/
theorem setByMatrix_getMatrix_negW_refuted :
    (setByMatrix ⟨fun r _ _ => r, fun c r _ => (c, r), fun _ _ => quatIdent⟩
      ⟨MODE_TERRAIN, 0, ⟨0, 0, 0⟩, 1, false, ⟨0, 0, 0⟩, ⟨0, 0, 0, -1⟩, 1, none, none⟩
      (getMatrix ⟨MODE_TERRAIN, 0, ⟨0, 0, 0⟩, 1, false, ⟨0, 0, 0⟩, ⟨0, 0, 0, -1⟩, 1, none, none⟩)).rotation ≠
    (⟨MODE_TERRAIN, 0, ⟨0, 0, 0⟩, 1, false, ⟨0, 0, 0⟩, ⟨0, 0, 0, -1⟩, 1, none, none⟩ : MState).rotation := by
  norm_num [setByMatrix, getMatrix, getRotate, matMul, translateMat, rotateMat, quatLength2,
    preMultVec3, ratSqrt, natSqrt, natSqrtGo, Quat.mk.injEq]

theorem rotateMat_affine_row_col (q : Quat) :
    (rotateMat q).m03 = 0 ∧ (rotateMat q).m13 = 0 ∧ (rotateMat q).m23 = 0 ∧
    (rotateMat q).m30 = 0 ∧ (rotateMat q).m31 = 0 ∧ (rotateMat q).m32 = 0 ∧
    (rotateMat q).m33 = 1 := by
  rw [rotateMat]
  split_ifs <;> exact ⟨rfl, rfl, rfl, rfl, rfl, rfl, rfl⟩

theorem preMultVec3_orbit_center (R : Mat4) (d : ℚ) (c : Vec3)
    (h03 : R.m03 = 0) (h13 : R.m13 = 0) (h23 : R.m23 = 0)
    (h30 : R.m30 = 0) (h31 : R.m31 = 0) (h32 : R.m32 = 0) (h33 : R.m33 = 1) :
    preMultVec3 ⟨0, 0, -d⟩ (matMul (matMul (translateMat ⟨0, 0, d⟩) R) (translateMat c)) = c := by
  ext <;>
    (dsimp only [preMultVec3, matMul, translateMat]
     rw [h03, h13, h23, h30, h31, h32, h33]
     ring)

/-- C5 (amended): in Orbit/Terrain mode with the vertical-axis fix disabled,
getViewMatrix followed by setFromMatrix restores center, distance and mode
exactly for EVERY state (any rotation quaternion), and restores the rotation
quaternion exactly whenever it is a unit quaternion whose scalar part w is
positive and dominant (w*w at least each other squared component); in general
the decomposition recovers the rotation only up to quaternion sign (same
rotation map, possibly the negated quaternion value). -/
theorem setByMatrix_getMatrix_roundtrip :
    (∀ (ext : OsgExt) (st : MState),
      st.myCurrentMode = MODE_TERRAIN →
      st.verticalAxisFixed = false →
      (setByMatrix ext st (getMatrix st)).center = st.center ∧
      (setByMatrix ext st (getMatrix st)).distance = st.distance ∧
      (setByMatrix ext st (getMatrix st)).myCurrentMode = st.myCurrentMode) ∧
    ∀ (ext : OsgExt) (st : MState),
      st.myCurrentMode = MODE_TERRAIN →
      st.verticalAxisFixed = false →
      quatLength2 st.rotation = 1 →
      0 < st.rotation.w →
      st.rotation.x * st.rotation.x ≤ st.rotation.w * st.rotation.w →
      st.rotation.y * st.rotation.y ≤ st.rotation.w * st.rotation.w →
      st.rotation.z * st.rotation.z ≤ st.rotation.w * st.rotation.w →
      (setByMatrix ext st (getMatrix st)).rotation = st.rotation := by
  constructor
  · intro ext st hm hv
    have hvc : ¬(st.verticalAxisFixed = true) := by simp [hv]
    rw [setByMatrix, if_neg hvc]
    refine ⟨?_, rfl, rfl⟩
    rw [getMatrix, if_pos hm]
    obtain ⟨h03, h13, h23, h30, h31, h32, h33⟩ := rotateMat_affine_row_col st.rotation
    exact preMultVec3_orbit_center (rotateMat st.rotation) st.distance st.center
      h03 h13 h23 h30 h31 h32 h33
  · intro ext st hm hv hu hw hx hy hz
    have hvc : ¬(st.verticalAxisFixed = true) := by simp [hv]
    rw [setByMatrix, if_neg hvc]
    rw [getMatrix_terrain_explicit st hm hu]
    exact getRotate_of_entries _ st.rotation hu hw hx hy hz rfl rfl rfl rfl rfl rfl rfl rfl rfl

/-- C5 witness: the round trip at a concrete Terrain state with a w-dominant
unit rotation (3/5, 0, 0, 4/5) and non-trivial center, exercising both the
universal center part and the rotation part. -/
theorem setByMatrix_getMatrix_roundtrip_witness :
    (setByMatrix ⟨fun r _ _ => r, fun c r _ => (c, r), fun _ _ => quatIdent⟩
      ⟨MODE_TERRAIN, 0, ⟨0, 0, 0⟩, 1, false, ⟨1, 2, 3⟩, ⟨3/5, 0, 0, 4/5⟩, 7, none, none⟩
      (getMatrix ⟨MODE_TERRAIN, 0, ⟨0, 0, 0⟩, 1, false, ⟨1, 2, 3⟩, ⟨3/5, 0, 0, 4/5⟩, 7, none, none⟩)).center =
      (⟨MODE_TERRAIN, 0, ⟨0, 0, 0⟩, 1, false, ⟨1, 2, 3⟩, ⟨3/5, 0, 0, 4/5⟩, 7, none, none⟩ : MState).center ∧
    (setByMatrix ⟨fun r _ _ => r, fun c r _ => (c, r), fun _ _ => quatIdent⟩
      ⟨MODE_TERRAIN, 0, ⟨0, 0, 0⟩, 1, false, ⟨1, 2, 3⟩, ⟨3/5, 0, 0, 4/5⟩, 7, none, none⟩
      (getMatrix ⟨MODE_TERRAIN, 0, ⟨0, 0, 0⟩, 1, false, ⟨1, 2, 3⟩, ⟨3/5, 0, 0, 4/5⟩, 7, none, none⟩)).rotation =
      (⟨MODE_TERRAIN, 0, ⟨0, 0, 0⟩, 1, false, ⟨1, 2, 3⟩, ⟨3/5, 0, 0, 4/5⟩, 7, none, none⟩ : MState).rotation :=
  ⟨(setByMatrix_getMatrix_roundtrip.1
      ⟨fun r _ _ => r, fun c r _ => (c, r), fun _ _ => quatIdent⟩
      ⟨MODE_TERRAIN, 0, ⟨0, 0, 0⟩, 1, false, ⟨1, 2, 3⟩, ⟨3/5, 0, 0, 4/5⟩, 7, none, none⟩
      rfl rfl).1,
   setByMatrix_getMatrix_roundtrip.2
      ⟨fun r _ _ => r, fun c r _ => (c, r), fun _ _ => quatIdent⟩
      ⟨MODE_TERRAIN, 0, ⟨0, 0, 0⟩, 1, false, ⟨1, 2, 3⟩, ⟨3/5, 0, 0, 4/5⟩, 7, none, none⟩
      rfl rfl (by norm_num [quatLength2]) (by norm_num) (by norm_num) (by norm_num) (by norm_num)⟩
